import Mathlib

/-!
# Verification of the one-dimensional GAN demo notebooks

This file embeds the numeric core of the two notebooks
`OneDimGaussianGAN.ipynb` and `NonSaturatingGAN.ipynb`: the (non-standard)
Gaussian density `gaussian_model`, the closed-form optimal `discriminator`,
the minimax / Jensen-Shannon-shifted `value_fn` of the first notebook and
the non-saturating `value_fn` of the second, together with the 90-point
sample grid `torch.arange(-3, 6, 0.1)` used by both redraw routines.
Tensor elementwise arithmetic is modelled pointwise over `ℝ`.

The second half of the file proves (or refutes) the specification's claims
about this core, including certified numeric bounds on trapezoidal grid
integrals obtained from a small scaled-integer interval engine for
`Real.exp` built on `Real.exp_one_near_20` and `Real.exp_bound`.
-/

open Finset

/-- Embedding of `gaussian_model(x, mean, variance)` from both notebooks:
`torch.exp(-(x - mean) ** 2 / variance) / torch.sqrt(2 * torch.pi * variance)`. -/
noncomputable def gaussian_model (x mean variance : ℝ) : ℝ :=
  Real.exp (-(x - mean) ^ 2 / variance) / Real.sqrt (2 * Real.pi * variance)

/-- Embedding of `make_gaussian_model(mean, variance)` from both notebooks. -/
noncomputable def make_gaussian_model (mean variance : ℝ) : ℝ → ℝ :=
  fun x => gaussian_model x mean variance

/-- Embedding of `discriminator(x, p_true, p_gen)` from both notebooks:
`p_true(x) / (p_true(x) + p_gen(x))`. -/
noncomputable def discriminator (x : ℝ) (p_true p_gen : ℝ → ℝ) : ℝ :=
  p_true x / (p_true x + p_gen x)

namespace OneDimGaussianGAN

/-- Embedding of the (final, shadowing) `value_fn(x, p_true, p_gen, rule='v')` of
`OneDimGaussianGAN.ipynb`:
`d = discriminator(x, p_true, p_gen)`,
`constant = loghalf if rule == 'js' else 0`,
`p_true(x) * (log(d) - constant) + p_gen(x) * (log((1 - d).clamp(1e-50)) - constant)`,
where `t.clamp(1e-50)` is `max t 1e-50` and `loghalf = math.log(0.5)`. -/
noncomputable def value_fn (x : ℝ) (p_true p_gen : ℝ → ℝ) (rule : String) : ℝ :=
  let d := discriminator x p_true p_gen
  let constant := if rule = "js" then Real.log 0.5 else 0
  p_true x * (Real.log d - constant) + p_gen x * (Real.log (max (1 - d) 1e-50) - constant)

end OneDimGaussianGAN

namespace NonSaturatingGAN

/-- Embedding of `value_fn(x, p_true, p_gen)` of `NonSaturatingGAN.ipynb`:
`p_gen(x) * torch.log(discriminator(x, p_true, p_gen))`. -/
noncomputable def value_fn (x : ℝ) (p_true p_gen : ℝ → ℝ) : ℝ :=
  p_gen x * Real.log (discriminator x p_true p_gen)

end NonSaturatingGAN

/-- Number of points of the sample grid `torch.arange(-3, 6, 0.1)` used in
`js_redraw_rule` (and `nonsaturating_redraw_rule`): `(6 - (-3)) / 0.1 = 90`. -/
def numPoints : ℕ := 90

/-- The `k`-th point of the sample grid `torch.arange(-3, 6, 0.1)`, for `k < numPoints`. -/
noncomputable def x_range (k : ℕ) : ℝ := -3 + (k : ℝ) * (1 / 10)

/-- Modelled from the spec: the spec's testable properties evaluate curve
integrals by a "sample-grid trapezoidal sum" over the grid `[-3, 6)` with
step `0.1`, but the notebooks only plot the curves and contain no
integration code.  This is the standard trapezoidal sum over the 90-point
grid `x_range`: the sum over consecutive grid pairs of
`(step) * (f x_k + f x_{k+1}) / 2`. -/
noncomputable def trapz (f : ℝ → ℝ) : ℝ :=
  ∑ k ∈ Finset.range (numPoints - 1),
    (x_range (k + 1) - x_range k) * (f (x_range k) + f (x_range (k + 1))) / 2

/-! ## Basic algebraic facts about the embedded functions -/

theorem gaussian_model_pos (x mean variance : ℝ) (hv : 0 < variance) :
    0 < gaussian_model x mean variance := by
  unfold gaussian_model
  apply div_pos (Real.exp_pos _)
  apply Real.sqrt_pos.2
  positivity

theorem discriminator_pos_lt_one (x : ℝ) (p_true p_gen : ℝ → ℝ)
    (ht : 0 < p_true x) (hg : 0 < p_gen x) :
    0 < discriminator x p_true p_gen ∧ discriminator x p_true p_gen < 1 := by
  unfold discriminator
  constructor
  · exact div_pos ht (by linarith)
  · rw [div_lt_one (by linarith)]
    linarith

theorem discriminator_self_eq_half (x : ℝ) (p : ℝ → ℝ) (hp : p x ≠ 0) :
    discriminator x p p = 1 / 2 := by
  unfold discriminator
  rw [← two_mul, mul_comm]
  rw [div_mul_eq_div_div]
  rw [div_self hp]

/-- Shared helper: for any `rule`, the value function with the given rule
spelled out, with the `js` branch of the `if` resolved. -/
theorem value_fn_v_eq (x : ℝ) (p_true p_gen : ℝ → ℝ) :
    OneDimGaussianGAN.value_fn x p_true p_gen "v"
      = p_true x * Real.log (discriminator x p_true p_gen)
        + p_gen x * Real.log (max (1 - discriminator x p_true p_gen) 1e-50) := by
  unfold OneDimGaussianGAN.value_fn
  rw [if_neg (by decide)]
  ring

theorem value_fn_js_eq (x : ℝ) (p_true p_gen : ℝ → ℝ) :
    OneDimGaussianGAN.value_fn x p_true p_gen "js"
      = OneDimGaussianGAN.value_fn x p_true p_gen "v"
        - (p_true x + p_gen x) * Real.log 0.5 := by
  unfold OneDimGaussianGAN.value_fn
  rw [if_pos rfl, if_neg (by decide)]
  ring

/-! ## Claims C1, C2, C7, C8, C9, C4 -/

/-- C1: for every real point `x`, real `mean` and positive real `variance`, the
Gaussian density returns exactly `exp(-(x-mean)^2 / variance) / sqrt(2*pi*variance)`
(the non-standard formula dividing the squared deviation by `variance`, not
`2*variance`), and this value is strictly positive. -/
theorem C1_gaussian_model_formula_and_pos (x mean variance : ℝ) (hv : 0 < variance) :
    gaussian_model x mean variance
      = Real.exp (-(x - mean) ^ 2 / variance) / Real.sqrt (2 * Real.pi * variance)
    ∧ 0 < gaussian_model x mean variance :=
  ⟨rfl, gaussian_model_pos x mean variance hv⟩

theorem C1_gaussian_model_formula_and_pos_witness :
    (0 : ℝ) < 1 ∧ 0 < gaussian_model 0 0 1 :=
  ⟨by norm_num, (C1_gaussian_model_formula_and_pos 0 0 1 (by norm_num)).2⟩

/-- C2: for every real `x` and every pair of Gaussian parameters with positive
variances, the discriminator returns `P_true(x) / (P_true(x) + P_gen(x))`, and
this value lies strictly in the open interval `(0, 1)`. -/
theorem C2_discriminator_formula_and_mem_Ioo (x m₁ v₁ m₂ v₂ : ℝ)
    (h₁ : 0 < v₁) (h₂ : 0 < v₂) :
    discriminator x (make_gaussian_model m₁ v₁) (make_gaussian_model m₂ v₂)
      = make_gaussian_model m₁ v₁ x
          / (make_gaussian_model m₁ v₁ x + make_gaussian_model m₂ v₂ x)
    ∧ 0 < discriminator x (make_gaussian_model m₁ v₁) (make_gaussian_model m₂ v₂)
    ∧ discriminator x (make_gaussian_model m₁ v₁) (make_gaussian_model m₂ v₂) < 1 := by
  have h := discriminator_pos_lt_one x (make_gaussian_model m₁ v₁) (make_gaussian_model m₂ v₂)
    (gaussian_model_pos x m₁ v₁ h₁) (gaussian_model_pos x m₂ v₂ h₂)
  exact ⟨rfl, h.1, h.2⟩

theorem C2_discriminator_formula_and_mem_Ioo_witness :
    0 < discriminator 0 (make_gaussian_model 0 1) (make_gaussian_model 1 1)
    ∧ discriminator 0 (make_gaussian_model 0 1) (make_gaussian_model 1 1) < 1 :=
  ⟨(C2_discriminator_formula_and_mem_Ioo 0 0 1 1 1 (by norm_num) (by norm_num)).2.1,
   (C2_discriminator_formula_and_mem_Ioo 0 0 1 1 1 (by norm_num) (by norm_num)).2.2⟩

/-- C7: when the true and generator parameters coincide (equal mean, equal
positive variance), the discriminator equals `0.5` at every sample point. -/
theorem C7_discriminator_eq_half_of_eq_params (x mean variance : ℝ) (hv : 0 < variance) :
    discriminator x (make_gaussian_model mean variance) (make_gaussian_model mean variance)
      = 1 / 2 :=
  discriminator_self_eq_half x (make_gaussian_model mean variance)
    (ne_of_gt (gaussian_model_pos x mean variance hv))

theorem C7_discriminator_eq_half_of_eq_params_witness :
    discriminator 0 (make_gaussian_model 0 1) (make_gaussian_model 0 1) = 1 / 2 :=
  C7_discriminator_eq_half_of_eq_params 0 0 1 (by norm_num)

/-- C8: the minimax (`rule = "v"`) value curve equals
`P_true(x) * log(D(x)) + P_gen(x) * log(max (1 - D(x)) 1e-50)`; the argument of
the second logarithm is floor-clamped at `1e-50`, so it is always at least
`1e-50` and `log 0` never occurs. -/
theorem C8_value_fn_minimax_formula_and_clamp (x : ℝ) (p_true p_gen : ℝ → ℝ) :
    OneDimGaussianGAN.value_fn x p_true p_gen "v"
      = p_true x * Real.log (discriminator x p_true p_gen)
        + p_gen x * Real.log (max (1 - discriminator x p_true p_gen) 1e-50)
    ∧ (1e-50 : ℝ) ≤ max (1 - discriminator x p_true p_gen) 1e-50 :=
  ⟨value_fn_v_eq x p_true p_gen, le_max_right _ _⟩

/-- C9: the non-saturating value curve equals `gen_density(x) * log(D(x))`
exactly (no true-density term, no `gen_density * log(1-D)` term); it depends on
the true density only through the discriminator ratio: any other true density
giving the same discriminator value gives the same value curve. -/
theorem C9_nonsaturating_value_fn_eq (x : ℝ) (p_true p_true' p_gen : ℝ → ℝ)
    (h : discriminator x p_true p_gen = discriminator x p_true' p_gen) :
    NonSaturatingGAN.value_fn x p_true p_gen
      = p_gen x * Real.log (discriminator x p_true p_gen)
    ∧ NonSaturatingGAN.value_fn x p_true p_gen
      = NonSaturatingGAN.value_fn x p_true' p_gen := by
  refine ⟨rfl, ?_⟩
  unfold NonSaturatingGAN.value_fn
  rw [h]

theorem C9_nonsaturating_value_fn_eq_witness :
    NonSaturatingGAN.value_fn 0 (fun _ => 1) (fun _ => 1)
      = (fun _ => (1 : ℝ)) 0 * Real.log (discriminator 0 (fun _ => 1) (fun _ => 1)) :=
  (C9_nonsaturating_value_fn_eq 0 (fun _ => 1) (fun _ => 1) (fun _ => 1) rfl).1

/-- C4: pointwise, the Jensen-Shannon-shifted value curve equals the minimax
value curve minus `(true_density(x) + gen_density(x)) * log(0.5)`. -/
theorem C4_value_fn_js_pointwise_shift (x : ℝ) (p_true p_gen : ℝ → ℝ) :
    OneDimGaussianGAN.value_fn x p_true p_gen "js"
      = OneDimGaussianGAN.value_fn x p_true p_gen "v"
        - (p_true x + p_gen x) * Real.log 0.5 :=
  value_fn_js_eq x p_true p_gen

/-! ## Trapezoidal sum algebra -/

theorem x_range_step (k : ℕ) : x_range (k + 1) - x_range k = 1 / 10 := by
  unfold x_range
  push_cast
  ring

theorem numPoints_sub_one : numPoints - 1 = 89 := rfl

theorem trapz_eq_sum (f : ℝ → ℝ) :
    trapz f = (∑ k ∈ Finset.range 90, f (x_range k)) / 10
      - (f (x_range 0) + f (x_range 89)) / 20 := by
  have h1 : trapz f = ∑ k ∈ Finset.range 89,
      (f (x_range k) / 20 + f (x_range (k + 1)) / 20) := by
    unfold trapz
    rw [numPoints_sub_one]
    refine Finset.sum_congr rfl fun k _ => ?_
    rw [x_range_step]
    ring
  rw [h1, Finset.sum_add_distrib]
  have hA : ∑ k ∈ Finset.range 89, f (x_range k) / 20
      = (∑ k ∈ Finset.range 90, f (x_range k)) / 20 - f (x_range 89) / 20 := by
    have h90 : ∑ k ∈ Finset.range 90, f (x_range k)
        = (∑ k ∈ Finset.range 89, f (x_range k)) + f (x_range 89) :=
      Finset.sum_range_succ _ 89
    rw [← Finset.sum_div, h90]
    ring
  have hB : ∑ k ∈ Finset.range 89, f (x_range (k + 1)) / 20
      = (∑ k ∈ Finset.range 90, f (x_range k)) / 20 - f (x_range 0) / 20 := by
    have h90 : ∑ k ∈ Finset.range 90, f (x_range k)
        = (∑ k ∈ Finset.range 89, f (x_range (k + 1))) + f (x_range 0) :=
      Finset.sum_range_succ' _ 89
    rw [← Finset.sum_div, h90]
    ring
  rw [hA, hB]
  ring

theorem trapz_sub (f g : ℝ → ℝ) :
    trapz (fun y => f y - g y) = trapz f - trapz g := by
  unfold trapz
  rw [← Finset.sum_sub_distrib]
  refine Finset.sum_congr rfl fun k _ => ?_
  ring

theorem trapz_add (f g : ℝ → ℝ) :
    trapz (fun y => f y + g y) = trapz f + trapz g := by
  unfold trapz
  rw [← Finset.sum_add_distrib]
  refine Finset.sum_congr rfl fun k _ => ?_
  ring

theorem trapz_mul_const (f : ℝ → ℝ) (c : ℝ) :
    trapz (fun y => f y * c) = trapz f * c := by
  unfold trapz
  rw [Finset.sum_mul]
  refine Finset.sum_congr rfl fun k _ => ?_
  ring

theorem trapz_const_mul (c : ℝ) (f : ℝ → ℝ) :
    trapz (fun y => c * f y) = c * trapz f := by
  unfold trapz
  rw [Finset.mul_sum]
  refine Finset.sum_congr rfl fun k _ => ?_
  ring

theorem trapz_le_trapz (f g : ℝ → ℝ) (h : ∀ x, f x ≤ g x) : trapz f ≤ trapz g := by
  unfold trapz
  refine Finset.sum_le_sum fun k _ => ?_
  rw [x_range_step]
  have h1 := h (x_range k)
  have h2 := h (x_range (k + 1))
  linarith

/-! ## Claim C3 -/

/-- C3 (counterexample): at `x = 0` with `true_params = gen_params = (0, 1)`,
the JS-shifted value curve does NOT equal the minimax value curve minus
`2 * log(0.5)`: the pointwise offset is `(P_true(x) + P_gen(x)) * log(0.5)`,
and at this point `P_true(0) + P_gen(0) = 2 / sqrt(2*pi) ≠ 2`. -/
theorem C3_js_shift_counterexample :
    ¬ (OneDimGaussianGAN.value_fn 0 (make_gaussian_model 0 1) (make_gaussian_model 0 1) "js"
        = OneDimGaussianGAN.value_fn 0 (make_gaussian_model 0 1) (make_gaussian_model 0 1) "v"
          - 2 * Real.log 0.5) := by
  intro h
  rw [value_fn_js_eq] at h
  set L := Real.log 0.5 with hLdef
  have hL : L < 0 := by
    rw [hLdef, show (0.5 : ℝ) = 2⁻¹ by norm_num, Real.log_inv]
    simpa using Real.log_pos (by norm_num)
  set p := make_gaussian_model 0 1 0 with hpdef
  have hp1 : p < 1 := by
    have hval : p = 1 / Real.sqrt (2 * Real.pi) := by
      rw [hpdef]
      unfold make_gaussian_model gaussian_model
      norm_num
    have hgt : 1 < Real.sqrt (2 * Real.pi) := by
      rw [show (1 : ℝ) = Real.sqrt 1 by rw [Real.sqrt_one]]
      apply Real.sqrt_lt_sqrt (by norm_num)
      have := Real.pi_gt_three
      linarith
    rw [hval]
    rw [div_lt_one (by linarith)]
    exact hgt
  have heq : (p + p) * L = 2 * L := by linarith
  have hlt : 1 * L < p * L := mul_lt_mul_of_neg_right hp1 hL
  nlinarith

/-- C3 (amended): pointwise, the JS-shifted value curve equals the minimax
value curve minus `(P_true(x) + P_gen(x)) * log(0.5)` (not minus the constant
`2 * log(0.5)`), and consequently the grid trapezoidal integral of the JS
curve equals the integral of the minimax curve minus
`(trapz P_true + trapz P_gen) * log(0.5)`. -/
theorem C3_js_shift_pointwise_and_integral (x : ℝ) (p_true p_gen : ℝ → ℝ) :
    OneDimGaussianGAN.value_fn x p_true p_gen "js"
      = OneDimGaussianGAN.value_fn x p_true p_gen "v"
        - (p_true x + p_gen x) * Real.log 0.5
    ∧ trapz (fun y => OneDimGaussianGAN.value_fn y p_true p_gen "js")
      = trapz (fun y => OneDimGaussianGAN.value_fn y p_true p_gen "v")
        - (trapz p_true + trapz p_gen) * Real.log 0.5 := by
  constructor
  · exact value_fn_js_eq x p_true p_gen
  · have h1 : (fun y => OneDimGaussianGAN.value_fn y p_true p_gen "js")
        = fun y => OneDimGaussianGAN.value_fn y p_true p_gen "v"
            - (p_true y + p_gen y) * Real.log 0.5 := by
      funext y
      exact value_fn_js_eq y p_true p_gen
    rw [h1, trapz_sub]
    have h2 : trapz (fun y => (p_true y + p_gen y) * Real.log 0.5)
        = (trapz p_true + trapz p_gen) * Real.log 0.5 := by
      rw [show (fun y => (p_true y + p_gen y) * Real.log 0.5)
          = fun y => (fun z => p_true z + p_gen z) y * Real.log 0.5 from rfl]
      rw [trapz_mul_const, trapz_add]
    rw [h2]

/-! ## A scaled-integer interval engine for `Real.exp` at rational points

All bounds are integers at the fixed scale `iscale = 10^15`: an integer `a`
stands for the real number `a / 10^15`.  Multiplication rounds down
(`mulLo`) or up (`mulHi`), so iterated products give certified lower and
upper bounds for real powers. -/

def iscale : ℤ := 10 ^ 15

theorem iscale_pos : (0 : ℤ) < iscale := by norm_num [iscale]

theorem iscale_cast_pos : (0 : ℝ) < ((iscale : ℤ) : ℝ) := by
  exact_mod_cast iscale_pos

/-- Real value represented by a scaled integer. -/
noncomputable def ival (a : ℤ) : ℝ := (a : ℝ) / ((iscale : ℤ) : ℝ)

def mulLo (a b : ℤ) : ℤ := a * b / iscale

def mulHi (a b : ℤ) : ℤ := (a * b + (iscale - 1)) / iscale

theorem int_ediv_mul_le (a : ℤ) : iscale * (a / iscale) ≤ a := by
  have h := Int.ediv_add_emod a iscale
  have h2 : 0 ≤ a % iscale := Int.emod_nonneg a (ne_of_gt iscale_pos)
  linarith

theorem int_le_ediv_mul_add (a : ℤ) : a ≤ iscale * (a / iscale) + (iscale - 1) := by
  have h := Int.ediv_add_emod a iscale
  have h2 : a % iscale < iscale := Int.emod_lt_of_pos a iscale_pos
  linarith

theorem mulLo_nonneg {a b : ℤ} (ha : 0 ≤ a) (hb : 0 ≤ b) : 0 ≤ mulLo a b :=
  Int.ediv_nonneg (mul_nonneg ha hb) (le_of_lt iscale_pos)

theorem ival_nonneg {a : ℤ} (ha : 0 ≤ a) : 0 ≤ ival a :=
  div_nonneg (by exact_mod_cast ha) (le_of_lt iscale_cast_pos)

theorem ival_mulLo_le (a b : ℤ) : ival (mulLo a b) ≤ ival a * ival b := by
  have hN := iscale_cast_pos
  have key : ((mulLo a b : ℤ) : ℝ) * ((iscale : ℤ) : ℝ) ≤ (a : ℝ) * (b : ℝ) := by
    have h := int_ediv_mul_le (a * b)
    have h' : ((iscale * (a * b / iscale) : ℤ) : ℝ) ≤ ((a * b : ℤ) : ℝ) := by
      exact_mod_cast h
    push_cast at h'
    unfold mulLo
    linarith
  unfold ival
  rw [div_mul_div_comm, div_le_div_iff₀ hN (by positivity)]
  nlinarith [key, hN]

theorem ival_mulHi_ge (a b : ℤ) : ival a * ival b ≤ ival (mulHi a b) := by
  have hN := iscale_cast_pos
  have key : (a : ℝ) * (b : ℝ) ≤ ((mulHi a b : ℤ) : ℝ) * ((iscale : ℤ) : ℝ) := by
    have h := int_le_ediv_mul_add (a * b + (iscale - 1))
    have h' : ((a * b + (iscale - 1) : ℤ) : ℝ)
        ≤ ((iscale * ((a * b + (iscale - 1)) / iscale) + (iscale - 1) : ℤ) : ℝ) := by
      exact_mod_cast h
    push_cast at h'
    unfold mulHi
    linarith
  unfold ival
  rw [div_mul_div_comm, div_le_div_iff₀ (by positivity) hN]
  nlinarith [key, hN]

def powLo (b : ℤ) : ℕ → ℤ
  | 0 => iscale
  | n + 1 => mulLo (powLo b n) b

def powHi (b : ℤ) : ℕ → ℤ
  | 0 => iscale
  | n + 1 => mulHi (powHi b n) b

theorem powLo_nonneg {b : ℤ} (hb : 0 ≤ b) : ∀ n, 0 ≤ powLo b n
  | 0 => le_of_lt iscale_pos
  | n + 1 => mulLo_nonneg (powLo_nonneg hb n) hb

theorem ival_iscale : ival iscale = 1 := by
  unfold ival
  exact div_self (ne_of_gt iscale_cast_pos)

theorem ival_powLo_le {b : ℤ} {x : ℝ} (hb : 0 ≤ b) (hbx : ival b ≤ x) (hx : 0 ≤ x) :
    ∀ n, ival (powLo b n) ≤ x ^ n
  | 0 => by rw [pow_zero, show powLo b 0 = iscale from rfl, ival_iscale]
  | n + 1 => by
    rw [pow_succ, show powLo b (n + 1) = mulLo (powLo b n) b from rfl]
    refine le_trans (ival_mulLo_le _ _) ?_
    exact mul_le_mul (ival_powLo_le hb hbx hx n) hbx (ival_nonneg hb) (pow_nonneg hx n)

theorem ival_powHi_ge {b : ℤ} {x : ℝ} (hx : 0 ≤ x) (hxb : x ≤ ival b) :
    ∀ n, x ^ n ≤ ival (powHi b n)
  | 0 => by rw [pow_zero, show powHi b 0 = iscale from rfl, ival_iscale]
  | n + 1 => by
    have hb : 0 ≤ b := by
      by_contra hcon
      push_neg at hcon
      have : ival b < 0 := by
        apply div_neg_of_neg_of_pos _ iscale_cast_pos
        exact_mod_cast hcon
      linarith
    have hpow : 0 ≤ ival (powHi b n) := le_trans (pow_nonneg hx n) (ival_powHi_ge hx hxb n)
    rw [pow_succ, show powHi b (n + 1) = mulHi (powHi b n) b from rfl]
    refine le_trans ?_ (ival_mulHi_ge _ _)
    exact mul_le_mul (ival_powHi_ge hx hxb n) hxb hx hpow

/-! ## Certified bounds for `exp (-1)` and `exp (-1/100)` -/

def E1lo : ℤ := 367879441171442

def E1hi : ℤ := 367879441171443

def EC1lo : ℤ := 990049833749164

def EC1hi : ℤ := 990049833749169

theorem E1lo_nonneg : (0 : ℤ) ≤ E1lo := by norm_num [E1lo]

theorem EC1lo_nonneg : (0 : ℤ) ≤ EC1lo := by norm_num [EC1lo]

theorem exp_neg_one_bounds :
    ival E1lo ≤ Real.exp (-1) ∧ Real.exp (-1) ≤ ival E1hi := by
  have h := abs_le.1 Real.exp_one_near_20
  have hub : Real.exp 1 ≤ 363916618873 / 133877442384 + 1 / 10 ^ 20 := by linarith [h.2]
  have hlb : 363916618873 / 133877442384 - 1 / 10 ^ 20 ≤ Real.exp 1 := by linarith [h.1]
  have hpos : (0 : ℝ) < Real.exp 1 := Real.exp_pos 1
  constructor
  · rw [Real.exp_neg]
    refine le_trans ?_ (inv_anti₀ hpos hub)
    unfold ival E1lo iscale
    push_cast
    rw [le_inv_comm₀ (by norm_num) (by norm_num)]
    norm_num
  · rw [Real.exp_neg]
    refine le_trans (inv_anti₀ (by norm_num) hlb) ?_
    unfold ival E1hi iscale
    push_cast
    rw [inv_le_comm₀ (by norm_num) (by norm_num)]
    norm_num

theorem exp_neg_centi_bounds :
    ival EC1lo ≤ Real.exp (-(1 / 100)) ∧ Real.exp (-(1 / 100)) ≤ ival EC1hi := by
  have habs : |(-(1 / 100) : ℝ)| ≤ 1 := by
    rw [abs_neg, abs_of_nonneg (by norm_num : (0 : ℝ) ≤ 1 / 100)]
    norm_num
  have h := @Real.exp_bound (-(1 / 100)) habs 6 (by norm_num)
  have hsum : (∑ m ∈ Finset.range 6, (-(1 / 100) : ℝ) ^ m / (Nat.factorial m : ℝ))
      = 1188059800499 / 1200000000000 := by
    simp [Finset.sum_range_succ, Nat.factorial]
    norm_num
  rw [hsum] at h
  have herr : |Real.exp (-(1 / 100)) - 1188059800499 / 1200000000000|
      ≤ 7 / 4320000000000000 := by
    refine le_trans h ?_
    rw [abs_neg, abs_of_nonneg (by norm_num : (0 : ℝ) ≤ 1 / 100)]
    norm_num [Nat.factorial]
  have h2 := abs_le.1 herr
  constructor
  · unfold ival EC1lo iscale
    push_cast
    have haux : (990049833749164 : ℝ) / 10 ^ 15
        ≤ 1188059800499 / 1200000000000 - 7 / 4320000000000000 := by norm_num
    linarith [h2.1]
  · unfold ival EC1hi iscale
    push_cast
    have haux : (1188059800499 : ℝ) / 1200000000000 + 7 / 4320000000000000
        ≤ 990049833749169 / 10 ^ 15 := by norm_num
    linarith [h2.2]

/-! ## Certified bounds for `exp (-a/100)`, `a : ℕ` -/

def expNegLo (a : ℕ) : ℤ := mulLo (powLo E1lo (a / 100)) (powLo EC1lo (a % 100))

def expNegHi (a : ℕ) : ℤ := mulHi (powHi E1hi (a / 100)) (powHi EC1hi (a % 100))

theorem expNegLo_nonneg (a : ℕ) : 0 ≤ expNegLo a :=
  mulLo_nonneg (powLo_nonneg E1lo_nonneg _) (powLo_nonneg EC1lo_nonneg _)

theorem exp_neg_decompose (a : ℕ) :
    Real.exp (-(a : ℝ) / 100)
      = Real.exp (-1) ^ (a / 100) * Real.exp (-(1 / 100)) ^ (a % 100) := by
  rw [← Real.exp_nat_mul, ← Real.exp_nat_mul, ← Real.exp_add]
  congr 1
  have h : 100 * (a / 100) + a % 100 = a := Nat.div_add_mod a 100
  have h' : 100 * ((a / 100 : ℕ) : ℝ) + ((a % 100 : ℕ) : ℝ) = (a : ℝ) := by
    exact_mod_cast congrArg (Nat.cast : ℕ → ℝ) h
  linarith

theorem ival_expNegLo_le (a : ℕ) : ival (expNegLo a) ≤ Real.exp (-(a : ℝ) / 100) := by
  rw [exp_neg_decompose]
  refine le_trans (ival_mulLo_le _ _) ?_
  have h1 : ival (powLo E1lo (a / 100)) ≤ Real.exp (-1) ^ (a / 100) :=
    ival_powLo_le E1lo_nonneg exp_neg_one_bounds.1 (le_of_lt (Real.exp_pos _)) _
  have h2 : ival (powLo EC1lo (a % 100)) ≤ Real.exp (-(1 / 100)) ^ (a % 100) :=
    ival_powLo_le EC1lo_nonneg exp_neg_centi_bounds.1 (le_of_lt (Real.exp_pos _)) _
  exact mul_le_mul h1 h2 (ival_nonneg (powLo_nonneg EC1lo_nonneg _))
    (pow_nonneg (le_of_lt (Real.exp_pos _)) _)

theorem ival_expNegHi_ge (a : ℕ) : Real.exp (-(a : ℝ) / 100) ≤ ival (expNegHi a) := by
  rw [exp_neg_decompose]
  refine le_trans ?_ (ival_mulHi_ge _ _)
  have h1 : Real.exp (-1) ^ (a / 100) ≤ ival (powHi E1hi (a / 100)) :=
    ival_powHi_ge (le_of_lt (Real.exp_pos _)) exp_neg_one_bounds.2 _
  have h2 : Real.exp (-(1 / 100)) ^ (a % 100) ≤ ival (powHi EC1hi (a % 100)) :=
    ival_powHi_ge (le_of_lt (Real.exp_pos _)) exp_neg_centi_bounds.2 _
  have hnn : 0 ≤ ival (powHi E1hi (a / 100)) :=
    le_trans (pow_nonneg (le_of_lt (Real.exp_pos _)) _) h1
  exact mul_le_mul h1 h2 (pow_nonneg (le_of_lt (Real.exp_pos _)) _) hnn

/-! ## The grid exponents of the two densities used by the spec's scenarios

At grid point `x_k = -3 + k/10`:
for `gaussian_model (mean := 0) (variance := 1)` the exponent is
`-(x_k)^2 = -(k - 30)^2 / 100`, and for
`gaussian_model (mean := 3) (variance := 0.5)` it is
`-2 * (x_k - 3)^2 = -2 * (k - 60)^2 / 100`. -/

def aG (k : ℕ) : ℕ := ((k : ℤ) - 30).natAbs ^ 2

def aT (k : ℕ) : ℕ := 2 * ((k : ℤ) - 60).natAbs ^ 2

theorem aG_cast (k : ℕ) : ((aG k : ℕ) : ℝ) = ((k : ℝ) - 30) ^ 2 := by
  unfold aG
  push_cast [Int.cast_natAbs]
  rw [sq_abs]

theorem aT_cast (k : ℕ) : ((aT k : ℕ) : ℝ) = 2 * ((k : ℝ) - 60) ^ 2 := by
  unfold aT
  push_cast [Int.cast_natAbs]
  rw [sq_abs]

theorem gaussian01_at_grid (k : ℕ) :
    make_gaussian_model 0 1 (x_range k)
      = Real.exp (-(aG k : ℝ) / 100) / Real.sqrt (2 * Real.pi) := by
  unfold make_gaussian_model gaussian_model x_range
  rw [mul_one]
  have harg : -(-3 + (k : ℝ) * (1 / 10) - 0) ^ 2 / 1 = -(aG k : ℝ) / 100 := by
    rw [aG_cast]
    ring
  rw [harg]

theorem gaussian305_at_grid (k : ℕ) :
    make_gaussian_model 3 0.5 (x_range k)
      = Real.exp (-(aT k : ℝ) / 100) / Real.sqrt Real.pi := by
  unfold make_gaussian_model gaussian_model x_range
  have hsq : (2 * Real.pi * 0.5 : ℝ) = Real.pi := by ring
  rw [hsq]
  have harg : -(-3 + (k : ℝ) * (1 / 10) - 3) ^ 2 / 0.5 = -(aT k : ℝ) / 100 := by
    rw [aT_cast]
    ring
  rw [harg]

/-! ## Certified numeric bounds on the grid sums and on `sqrt` constants -/

set_option maxRecDepth 4000 in
theorem sum_exp_aG_ge :
    (17724398302229518 : ℝ) / 10 ^ 15
      ≤ ∑ k ∈ Finset.range 90, Real.exp (-(aG k : ℝ) / 100) := by
  have hdec : (17724398302229518 : ℤ) ≤ ∑ k ∈ Finset.range 90, expNegLo (aG k) := by decide
  have hsum : ∑ k ∈ Finset.range 90, ival (expNegLo (aG k))
      ≤ ∑ k ∈ Finset.range 90, Real.exp (-(aG k : ℝ) / 100) :=
    Finset.sum_le_sum fun k _ => ival_expNegLo_le (aG k)
  have hcast : ((∑ k ∈ Finset.range 90, expNegLo (aG k) : ℤ) : ℝ) / ((iscale : ℤ) : ℝ)
      = ∑ k ∈ Finset.range 90, ival (expNegLo (aG k)) := by
    unfold ival
    rw [← Finset.sum_div]
    congr 1
    push_cast
    rfl
  have hle : (17724398302229518 : ℝ) / 10 ^ 15
      ≤ ((∑ k ∈ Finset.range 90, expNegLo (aG k) : ℤ) : ℝ) / ((iscale : ℤ) : ℝ) := by
    rw [show ((iscale : ℤ) : ℝ) = 10 ^ 15 by norm_num [iscale]]
    gcongr
    exact_mod_cast hdec
  linarith [hle, hsum, hcast.le, hcast.ge]

set_option maxRecDepth 4000 in
theorem sum_exp_aG_le :
    ∑ k ∈ Finset.range 90, Real.exp (-(aG k : ℝ) / 100)
      ≤ (17724398302232554 : ℝ) / 10 ^ 15 := by
  have hdec : (∑ k ∈ Finset.range 90, expNegHi (aG k)) ≤ (17724398302232554 : ℤ) := by decide
  have hsum : ∑ k ∈ Finset.range 90, Real.exp (-(aG k : ℝ) / 100)
      ≤ ∑ k ∈ Finset.range 90, ival (expNegHi (aG k)) :=
    Finset.sum_le_sum fun k _ => ival_expNegHi_ge (aG k)
  have hcast : ((∑ k ∈ Finset.range 90, expNegHi (aG k) : ℤ) : ℝ) / ((iscale : ℤ) : ℝ)
      = ∑ k ∈ Finset.range 90, ival (expNegHi (aG k)) := by
    unfold ival
    rw [← Finset.sum_div]
    congr 1
    push_cast
    rfl
  have hle : ((∑ k ∈ Finset.range 90, expNegHi (aG k) : ℤ) : ℝ) / ((iscale : ℤ) : ℝ)
      ≤ (17724398302232554 : ℝ) / 10 ^ 15 := by
    rw [show ((iscale : ℤ) : ℝ) = 10 ^ 15 by norm_num [iscale]]
    gcongr
    exact_mod_cast hdec
  linarith [hle, hsum, hcast.le, hcast.ge]

set_option maxRecDepth 4000 in
theorem sum_exp_aT_le :
    ∑ k ∈ Finset.range 90, Real.exp (-(aT k : ℝ) / 100)
      ≤ (12533141351685234 : ℝ) / 10 ^ 15 := by
  have hdec : (∑ k ∈ Finset.range 90, expNegHi (aT k)) ≤ (12533141351685234 : ℤ) := by decide
  have hsum : ∑ k ∈ Finset.range 90, Real.exp (-(aT k : ℝ) / 100)
      ≤ ∑ k ∈ Finset.range 90, ival (expNegHi (aT k)) :=
    Finset.sum_le_sum fun k _ => ival_expNegHi_ge (aT k)
  have hcast : ((∑ k ∈ Finset.range 90, expNegHi (aT k) : ℤ) : ℝ) / ((iscale : ℤ) : ℝ)
      = ∑ k ∈ Finset.range 90, ival (expNegHi (aT k)) := by
    unfold ival
    rw [← Finset.sum_div]
    congr 1
    push_cast
    rfl
  have hle : ((∑ k ∈ Finset.range 90, expNegHi (aT k) : ℤ) : ℝ) / ((iscale : ℤ) : ℝ)
      ≤ (12533141351685234 : ℝ) / 10 ^ 15 := by
    rw [show ((iscale : ℤ) : ℝ) = 10 ^ 15 by norm_num [iscale]]
    gcongr
    exact_mod_cast hdec
  linarith [hle, hsum, hcast.le, hcast.ge]

set_option maxRecDepth 8000 in
/-- Certified bounds for the single values `exp (-900/100) = exp (-9)`,
`exp (-3481/100)` and `exp (-1800/100) = exp (-18)` needed for the grid
endpoints and for the discriminator scenario values. -/
theorem exp_endpoint_bounds :
    ((123409804086 : ℝ) / 10 ^ 15 ≤ Real.exp (-(900 : ℝ) / 100)
      ∧ Real.exp (-(900 : ℝ) / 100) ≤ (123409804087 : ℝ) / 10 ^ 15)
    ∧ Real.exp (-(3481 : ℝ) / 100) ≤ (1 : ℝ) / 10 ^ 15
    ∧ Real.exp (-(1800 : ℝ) / 100) ≤ (15229981 : ℝ) / 10 ^ 15 := by
  have hN : ((iscale : ℤ) : ℝ) = 10 ^ 15 := by norm_num [iscale]
  refine ⟨⟨?_, ?_⟩, ?_, ?_⟩
  · have h := ival_expNegLo_le 900
    have hd : (123409804086 : ℤ) ≤ expNegLo 900 := by decide
    unfold ival at h
    rw [hN] at h
    push_cast at h
    refine le_trans ?_ h
    gcongr
    exact_mod_cast hd
  · have h := ival_expNegHi_ge 900
    have hd : expNegHi 900 ≤ (123409804087 : ℤ) := by decide
    unfold ival at h
    rw [hN] at h
    push_cast at h
    refine le_trans h ?_
    gcongr
    exact_mod_cast hd
  · have h := ival_expNegHi_ge 3481
    have hd : expNegHi 3481 ≤ (1 : ℤ) := by decide
    unfold ival at h
    rw [hN] at h
    push_cast at h
    refine le_trans h ?_
    gcongr
    exact_mod_cast hd
  · have h := ival_expNegHi_ge 1800
    have hd : expNegHi 1800 ≤ (15229981 : ℤ) := by decide
    unfold ival at h
    rw [hN] at h
    push_cast at h
    refine le_trans h ?_
    gcongr
    exact_mod_cast hd

theorem sqrt_two_pi_bounds :
    (2.506628 : ℝ) ≤ Real.sqrt (2 * Real.pi) ∧ Real.sqrt (2 * Real.pi) ≤ 2.506629 := by
  have hpi_lo := Real.pi_gt_d6
  have hpi_hi := Real.pi_lt_d6
  constructor
  · rw [show (2.506628 : ℝ) = √(2.506628 ^ 2) by
      rw [Real.sqrt_sq (by norm_num)]]
    apply Real.sqrt_le_sqrt
    nlinarith
  · rw [show (2.506629 : ℝ) = √(2.506629 ^ 2) by
      rw [Real.sqrt_sq (by norm_num)]]
    apply Real.sqrt_le_sqrt
    nlinarith

theorem sqrt_pi_bounds :
    (1.772453 : ℝ) ≤ Real.sqrt Real.pi ∧ Real.sqrt Real.pi ≤ 1.772454 := by
  have hpi_lo := Real.pi_gt_d6
  have hpi_hi := Real.pi_lt_d6
  constructor
  · rw [show (1.772453 : ℝ) = √(1.772453 ^ 2) by
      rw [Real.sqrt_sq (by norm_num)]]
    apply Real.sqrt_le_sqrt
    nlinarith
  · rw [show (1.772454 : ℝ) = √(1.772454 ^ 2) by
      rw [Real.sqrt_sq (by norm_num)]]
    apply Real.sqrt_le_sqrt
    nlinarith

theorem sqrt_two_bounds :
    (1.414213 : ℝ) ≤ Real.sqrt 2 ∧ Real.sqrt 2 ≤ 1.414214 := by
  constructor
  · rw [show (1.414213 : ℝ) = √(1.414213 ^ 2) by
      rw [Real.sqrt_sq (by norm_num)]]
    apply Real.sqrt_le_sqrt
    norm_num
  · rw [show (1.414214 : ℝ) = √(1.414214 ^ 2) by
      rw [Real.sqrt_sq (by norm_num)]]
    apply Real.sqrt_le_sqrt
    norm_num

/-! ## Pointwise facts about the minimax value curve -/

/-- Shared helper: the minimax value curve is pointwise at least
`(P_true(x) + P_gen(x)) * log(0.5)`, because the optimal discriminator
maximises `a * log y + b * log (1-y)` over `y`, whose value at `y = 1/2` is
`(a + b) * log (1/2)`; the clamp only increases the second logarithm. -/
theorem value_fn_v_ge (x : ℝ) (p_true p_gen : ℝ → ℝ)
    (ht : 0 < p_true x) (hg : 0 < p_gen x) :
    (p_true x + p_gen x) * Real.log 0.5
      ≤ OneDimGaussianGAN.value_fn x p_true p_gen "v" := by
  rw [value_fn_v_eq]
  have hd : discriminator x p_true p_gen = p_true x / (p_true x + p_gen x) := rfl
  rw [hd]
  set a := p_true x with ha
  set b := p_gen x with hb
  have hs : 0 < a + b := by linarith
  have hdpos : 0 < a / (a + b) := div_pos ht hs
  have h1d : 1 - a / (a + b) = b / (a + b) := by field_simp
  have hclamp : Real.log (b / (a + b)) ≤ Real.log (max (1 - a / (a + b)) 1e-50) := by
    apply Real.log_le_log (div_pos hg hs)
    rw [h1d]
    exact le_max_left _ _
  have k1 : Real.log 0.5 - Real.log (a / (a + b)) ≤ (a + b) / (2 * a) - 1 := by
    have harg : (0 : ℝ) < (a + b) / (2 * a) := by positivity
    have hlog := Real.log_le_sub_one_of_pos harg
    have hsplit : Real.log ((a + b) / (2 * a)) = Real.log 0.5 - Real.log (a / (a + b)) := by
      rw [Real.log_div (by positivity) (by positivity),
        Real.log_div (by positivity) (by positivity),
        Real.log_mul (by norm_num) (by positivity),
        show (0.5 : ℝ) = 2⁻¹ by norm_num, Real.log_inv]
      ring
    linarith [hsplit.le, hsplit.ge]
  have k2 : Real.log 0.5 - Real.log (b / (a + b)) ≤ (a + b) / (2 * b) - 1 := by
    have harg : (0 : ℝ) < (a + b) / (2 * b) := by positivity
    have hlog := Real.log_le_sub_one_of_pos harg
    have hsplit : Real.log ((a + b) / (2 * b)) = Real.log 0.5 - Real.log (b / (a + b)) := by
      rw [Real.log_div (by positivity) (by positivity),
        Real.log_div (by positivity) (by positivity),
        Real.log_mul (by norm_num) (by positivity),
        show (0.5 : ℝ) = 2⁻¹ by norm_num, Real.log_inv]
      ring
    linarith [hsplit.le, hsplit.ge]
  have m1 : a * Real.log 0.5 - a * Real.log (a / (a + b)) ≤ (a + b) / 2 - a := by
    have hm := mul_le_mul_of_nonneg_left k1 (le_of_lt ht)
    rw [mul_sub] at hm
    have hid : a * ((a + b) / (2 * a) - 1) = (a + b) / 2 - a := by
      field_simp
      ring
    linarith [hid.le, hid.ge]
  have m2 : b * Real.log 0.5 - b * Real.log (b / (a + b)) ≤ (a + b) / 2 - b := by
    have hm := mul_le_mul_of_nonneg_left k2 (le_of_lt hg)
    rw [mul_sub] at hm
    have hid : b * ((a + b) / (2 * b) - 1) = (a + b) / 2 - b := by
      field_simp
      ring
    linarith [hid.le, hid.ge]
  have m3 : b * Real.log (b / (a + b)) ≤ b * Real.log (max (1 - a / (a + b)) 1e-50) :=
    mul_le_mul_of_nonneg_left hclamp (le_of_lt hg)
  nlinarith [m1, m2, m3]

/-- Shared helper: with identical parameters the minimax value curve is
`2 * log(0.5) * density` pointwise (the discriminator is `1/2` and the clamp
is inactive). -/
theorem value_fn_v_self_eq (x mean variance : ℝ) (hv : 0 < variance) :
    OneDimGaussianGAN.value_fn x (make_gaussian_model mean variance)
        (make_gaussian_model mean variance) "v"
      = 2 * Real.log 0.5 * gaussian_model x mean variance := by
  rw [value_fn_v_eq,
    discriminator_self_eq_half x _ (ne_of_gt (gaussian_model_pos x mean variance hv))]
  rw [show max (1 - 1 / 2 : ℝ) 1e-50 = 1 / 2 by
    rw [show (1 - 1 / 2 : ℝ) = 1 / 2 by norm_num, max_eq_left (by norm_num)]]
  rw [show (0.5 : ℝ) = 1 / 2 by norm_num]
  unfold make_gaussian_model
  ring

theorem trapz_value_self :
    trapz (fun y => OneDimGaussianGAN.value_fn y (make_gaussian_model 0 1)
        (make_gaussian_model 0 1) "v")
      = 2 * Real.log 0.5 * trapz (make_gaussian_model 0 1) := by
  have hfun : (fun y => OneDimGaussianGAN.value_fn y (make_gaussian_model 0 1)
        (make_gaussian_model 0 1) "v")
      = fun y => 2 * Real.log 0.5 * make_gaussian_model 0 1 y := by
    funext y
    rw [value_fn_v_self_eq y 0 1 (by norm_num)]
    rfl
  rw [hfun, trapz_const_mul]

/-! ## Certified bounds on the trapezoidal integrals of the two densities -/

theorem trapz_gaussian01_bounds :
    (0.70709 : ℝ) ≤ trapz (make_gaussian_model 0 1)
    ∧ trapz (make_gaussian_model 0 1) ≤ 0.70710 := by
  have hs := sqrt_two_pi_bounds
  have hspos : (0 : ℝ) < Real.sqrt (2 * Real.pi) := lt_of_lt_of_le (by norm_num) hs.1
  rw [trapz_eq_sum]
  simp only [gaussian01_at_grid]
  rw [← Finset.sum_div]
  have h0 : ((aG 0 : ℕ) : ℝ) = 900 := by
    rw [show aG 0 = 900 from by decide]
    norm_num
  have h89 : ((aG 89 : ℕ) : ℝ) = 3481 := by
    rw [show aG 89 = 3481 from by decide]
    norm_num
  rw [h0, h89]
  set s := Real.sqrt (2 * Real.pi) with hsdef
  set E := ∑ k ∈ Finset.range 90, Real.exp (-(aG k : ℝ) / 100) with hEdef
  set e0 := Real.exp (-(900 : ℝ) / 100) with he0def
  set e89 := Real.exp (-(3481 : ℝ) / 100) with he89def
  have hrw : E / s / 10 - (e0 / s + e89 / s) / 20 = (E / 10 - (e0 + e89) / 20) / s := by
    ring
  rw [hrw]
  have hEb1 := sum_exp_aG_ge
  have hEb2 := sum_exp_aG_le
  have he0b := exp_endpoint_bounds.1
  have he89b := exp_endpoint_bounds.2.1
  have he89pos : 0 < e89 := Real.exp_pos _
  have he0pos : 0 < e0 := Real.exp_pos _
  constructor
  · have hXl : (17724398302229518 : ℝ) / 10 ^ 15 / 10
        - (123409804087 / 10 ^ 15 + 1 / 10 ^ 15) / 20 ≤ E / 10 - (e0 + e89) / 20 := by
      rw [← hEdef] at hEb1
      linarith [hEb1, he0b.2, he89b]
    have hdiv : (17724398302229518 : ℝ) / 10 ^ 15 / 10
        - (123409804087 / 10 ^ 15 + 1 / 10 ^ 15) / 20 ≤ (E / 10 - (e0 + e89) / 20) →
        ((17724398302229518 : ℝ) / 10 ^ 15 / 10
          - (123409804087 / 10 ^ 15 + 1 / 10 ^ 15) / 20) / 2.506629
        ≤ (E / 10 - (e0 + e89) / 20) / s := by
      intro hX
      exact div_le_div₀ (by linarith) hX hspos hs.2
    refine le_trans ?_ (hdiv hXl)
    norm_num
  · have hXh : E / 10 - (e0 + e89) / 20
        ≤ (17724398302232554 : ℝ) / 10 ^ 15 / 10 - (123409804086 / 10 ^ 15) / 20 := by
      rw [← hEdef] at hEb2
      linarith [hEb2, he0b.1, he89pos]
    have hdiv : (E / 10 - (e0 + e89) / 20) / s
        ≤ ((17724398302232554 : ℝ) / 10 ^ 15 / 10 - (123409804086 / 10 ^ 15) / 20)
          / 2.506628 :=
      div_le_div₀ (by norm_num) hXh (by norm_num) hs.1
    refine le_trans hdiv ?_
    norm_num

theorem trapz_gaussian305_le : trapz (make_gaussian_model 3 0.5) ≤ 0.707108 := by
  have hs := sqrt_pi_bounds
  have hspos : (0 : ℝ) < Real.sqrt Real.pi := lt_of_lt_of_le (by norm_num) hs.1
  rw [trapz_eq_sum]
  simp only [gaussian305_at_grid]
  rw [← Finset.sum_div]
  set s := Real.sqrt Real.pi with hsdef
  set E := ∑ k ∈ Finset.range 90, Real.exp (-(aT k : ℝ) / 100) with hEdef
  have hE := sum_exp_aT_le
  rw [← hEdef] at hE
  have hEpos : 0 ≤ E := by
    rw [hEdef]
    exact Finset.sum_nonneg fun k _ => le_of_lt (Real.exp_pos _)
  have hends : 0 ≤ (Real.exp (-(aT 0 : ℝ) / 100) / s + Real.exp (-(aT 89 : ℝ) / 100) / s) / 20 := by
    positivity
  have h1 : E / s / 10 ≤ (12533141351685234 : ℝ) / 10 ^ 15 / 1.772453 / 10 := by
    have h2 : E / s ≤ (12533141351685234 : ℝ) / 10 ^ 15 / 1.772453 :=
      div_le_div₀ (by norm_num) hE (by norm_num) hs.1
    linarith
  have h3 : (12533141351685234 : ℝ) / 10 ^ 15 / 1.772453 / 10 ≤ 0.707108 := by norm_num
  linarith

/-! ## Claim C5 -/

theorem gaussian01_integral : (∫ x, gaussian_model x 0 1) = (Real.sqrt 2)⁻¹ := by
  have hfun : (fun x : ℝ => gaussian_model x 0 1)
      = fun x : ℝ => Real.exp (-1 * x ^ 2) / Real.sqrt (2 * Real.pi) := by
    funext x
    unfold gaussian_model
    rw [mul_one, show (-(x - 0) ^ 2 / 1 : ℝ) = -1 * x ^ 2 by ring]
  rw [hfun, MeasureTheory.integral_div, integral_gaussian, div_one,
    Real.sqrt_mul (by norm_num : (0 : ℝ) ≤ 2) Real.pi, div_mul_eq_div_div_swap,
    div_self (ne_of_gt (Real.sqrt_pos.2 Real.pi_pos)), one_div]

/-- C5: the density with normalization constant `sqrt(2*pi*variance)` does NOT
integrate to 1: for `mean = 0`, `variance = 1`, the exact integral over `ℝ`
is `1/sqrt 2`, the grid trapezoidal sum over `[-3, 6)` step `0.1` differs from
`1` by more than `1/4`, and it is within `1/100` of `1/sqrt 2`. -/
theorem C5_gaussian_trapz_not_one :
    (∫ x, gaussian_model x 0 1) = (Real.sqrt 2)⁻¹
    ∧ 1 / 4 < |trapz (make_gaussian_model 0 1) - 1|
    ∧ |trapz (make_gaussian_model 0 1) - (Real.sqrt 2)⁻¹| < 1 / 100 := by
  have ht := trapz_gaussian01_bounds
  have hs2 := sqrt_two_bounds
  have hs2pos : (0 : ℝ) < Real.sqrt 2 := lt_of_lt_of_le (by norm_num) hs2.1
  have hinv_lo : (0.707106 : ℝ) ≤ (Real.sqrt 2)⁻¹ := by
    have h1 : (1.414214 : ℝ)⁻¹ ≤ (Real.sqrt 2)⁻¹ := inv_anti₀ hs2pos hs2.2
    have h2 : (0.707106 : ℝ) ≤ (1.414214 : ℝ)⁻¹ := by norm_num
    linarith
  have hinv_hi : (Real.sqrt 2)⁻¹ ≤ 0.707108 := by
    have h1 : (Real.sqrt 2)⁻¹ ≤ (1.414213 : ℝ)⁻¹ := inv_anti₀ (by norm_num) hs2.1
    have h2 : (1.414213 : ℝ)⁻¹ ≤ (0.707108 : ℝ) := by norm_num
    linarith
  refine ⟨gaussian01_integral, ?_, ?_⟩
  · rw [abs_sub_comm, abs_of_nonneg (by linarith [ht.2])]
    linarith [ht.2]
  · rw [abs_lt]
    constructor <;> linarith [ht.1, ht.2]

/-! ## Claim C6 -/

theorem trapz_value_self_bracket :
    (-0.9803 : ℝ) < 2 * Real.log 0.5 * trapz (make_gaussian_model 0 1)
    ∧ 2 * Real.log 0.5 * trapz (make_gaussian_model 0 1) < -0.9802 := by
  have ht := trapz_gaussian01_bounds
  have hlog05 : Real.log 0.5 = -Real.log 2 := by
    rw [show (0.5 : ℝ) = 2⁻¹ by norm_num, Real.log_inv]
  have hl2a := Real.log_two_gt_d9
  have hl2b := Real.log_two_lt_d9
  have htnn : (0 : ℝ) ≤ trapz (make_gaussian_model 0 1) := by linarith [ht.1]
  have hp1 : Real.log 2 * trapz (make_gaussian_model 0 1) ≤ 0.6931471808 * 0.70710 :=
    mul_le_mul (le_of_lt hl2b) ht.2 htnn (by norm_num)
  have hp2 : (0.6931471803 : ℝ) * 0.70709 ≤ Real.log 2 * trapz (make_gaussian_model 0 1) :=
    mul_le_mul (le_of_lt hl2a) ht.1 (by norm_num) (by linarith)
  rw [hlog05]
  constructor
  · linarith [hp1]
  · linarith [hp2]

/-- C6 (counterexample): with `true_params = gen_params = (0, 1)`, the
trapezoidal integral of the minimax value curve over the grid is ≈ `-0.98025`,
which differs from `-log 4 ≈ -1.38629` by more than `2/5` — far beyond any
numerical tolerance of the `0.1`-step sample grid.  (The density integrates to
`≈ 1/sqrt 2`, not `1`, so the integral is `-log 4 / sqrt 2`, not `-log 4`.) -/
theorem C6_minimax_integral_counterexample :
    2 / 5 < |trapz (fun y => OneDimGaussianGAN.value_fn y (make_gaussian_model 0 1)
        (make_gaussian_model 0 1) "v") - (-Real.log 4)| := by
  rw [trapz_value_self, sub_neg_eq_add]
  have hb := trapz_value_self_bracket
  have hlog4 : Real.log 4 = 2 * Real.log 2 := by
    rw [show (4 : ℝ) = 2 ^ 2 by norm_num, Real.log_pow]
    push_cast
    ring
  have hl2a := Real.log_two_gt_d9
  have hpos : 2 / 5 < 2 * Real.log 0.5 * trapz (make_gaussian_model 0 1) + Real.log 4 := by
    rw [hlog4]
    linarith [hb.1]
  exact lt_of_lt_of_le hpos (le_abs_self _)

/-- C6 (amended): with `true_params = gen_params = (0, 1)`, the trapezoidal
integral of the minimax value curve equals `2 * log(0.5)` times the trapezoidal
integral of the density; numerically it lies in `(-0.9803, -0.9802)` — that is
`≈ -log 4 / sqrt 2 ≈ -0.9803` (since the density integrates to `≈ 1/sqrt 2`),
not `≈ -log 4 ≈ -1.386`. -/
theorem C6_minimax_integral_eq_params_amended :
    trapz (fun y => OneDimGaussianGAN.value_fn y (make_gaussian_model 0 1)
        (make_gaussian_model 0 1) "v")
      = 2 * Real.log 0.5 * trapz (make_gaussian_model 0 1)
    ∧ (-0.9803 : ℝ) < trapz (fun y => OneDimGaussianGAN.value_fn y (make_gaussian_model 0 1)
        (make_gaussian_model 0 1) "v")
    ∧ trapz (fun y => OneDimGaussianGAN.value_fn y (make_gaussian_model 0 1)
        (make_gaussian_model 0 1) "v") < -0.9802 := by
  refine ⟨trapz_value_self, ?_, ?_⟩ <;> rw [trapz_value_self]
  · exact trapz_value_self_bracket.1
  · exact trapz_value_self_bracket.2

/-! ## Claim C10 -/

theorem scenario_disc_at_3 :
    (0.9 : ℝ) < discriminator 3 (make_gaussian_model 3 0.5) (make_gaussian_model 0 1) := by
  have h1 : make_gaussian_model 3 0.5 3 = 1 / Real.sqrt Real.pi := by
    unfold make_gaussian_model gaussian_model
    rw [show (2 * Real.pi * 0.5 : ℝ) = Real.pi by ring,
      show (-(3 - 3 : ℝ) ^ 2 / 0.5) = 0 by norm_num, Real.exp_zero]
  have h2 : make_gaussian_model 0 1 3
      = Real.exp (-(900 : ℝ) / 100) / Real.sqrt (2 * Real.pi) := by
    unfold make_gaussian_model gaussian_model
    rw [mul_one, show (-(3 - 0 : ℝ) ^ 2 / 1) = -(900 : ℝ) / 100 by norm_num]
  have hspi := sqrt_pi_bounds
  have hs2pi := sqrt_two_pi_bounds
  have he9 := exp_endpoint_bounds.1
  have ha : (0.564 : ℝ) ≤ make_gaussian_model 3 0.5 3 := by
    rw [h1]
    have hle : (1 : ℝ) / 1.772454 ≤ 1 / Real.sqrt Real.pi :=
      one_div_le_one_div_of_le (lt_of_lt_of_le (by norm_num) hspi.1) hspi.2
    have hnum : (0.564 : ℝ) ≤ 1 / 1.772454 := by norm_num
    linarith
  have hb : make_gaussian_model 0 1 3 ≤ 0.00005 := by
    rw [h2]
    have hdiv : Real.exp (-(900 : ℝ) / 100) / Real.sqrt (2 * Real.pi)
        ≤ (123409804087 / 10 ^ 15 : ℝ) / 2.506628 :=
      div_le_div₀ (by norm_num) he9.2 (by norm_num) hs2pi.1
    refine le_trans hdiv ?_
    norm_num
  have hA : 0 < make_gaussian_model 3 0.5 3 := gaussian_model_pos 3 3 0.5 (by norm_num)
  have hB : 0 < make_gaussian_model 0 1 3 := gaussian_model_pos 3 0 1 (by norm_num)
  unfold discriminator
  rw [lt_div_iff₀ (by linarith)]
  linarith

theorem scenario_disc_at_0 :
    discriminator 0 (make_gaussian_model 3 0.5) (make_gaussian_model 0 1) < 0.2 := by
  have h3 : make_gaussian_model 3 0.5 0
      = Real.exp (-(1800 : ℝ) / 100) / Real.sqrt Real.pi := by
    unfold make_gaussian_model gaussian_model
    rw [show (2 * Real.pi * 0.5 : ℝ) = Real.pi by ring,
      show (-(0 - 3 : ℝ) ^ 2 / 0.5) = -(1800 : ℝ) / 100 by norm_num]
  have h4 : make_gaussian_model 0 1 0 = 1 / Real.sqrt (2 * Real.pi) := by
    unfold make_gaussian_model gaussian_model
    rw [mul_one, show (-(0 - 0 : ℝ) ^ 2 / 1) = 0 by norm_num, Real.exp_zero]
  have hspi := sqrt_pi_bounds
  have hs2pi := sqrt_two_pi_bounds
  have he18 := exp_endpoint_bounds.2.2
  have ha : make_gaussian_model 3 0.5 0 ≤ 0.00000002 := by
    rw [h3]
    have hdiv : Real.exp (-(1800 : ℝ) / 100) / Real.sqrt Real.pi
        ≤ (15229981 / 10 ^ 15 : ℝ) / 1.772453 :=
      div_le_div₀ (by norm_num) he18 (by norm_num) hspi.1
    refine le_trans hdiv ?_
    norm_num
  have hb : (0.398 : ℝ) ≤ make_gaussian_model 0 1 0 := by
    rw [h4]
    have hle : (1 : ℝ) / 2.506629 ≤ 1 / Real.sqrt (2 * Real.pi) :=
      one_div_le_one_div_of_le (lt_of_lt_of_le (by norm_num) hs2pi.1) hs2pi.2
    have hnum : (0.398 : ℝ) ≤ 1 / 2.506629 := by norm_num
    linarith
  have hA : 0 < make_gaussian_model 3 0.5 0 := gaussian_model_pos 0 3 0.5 (by norm_num)
  have hB : 0 < make_gaussian_model 0 1 0 := gaussian_model_pos 0 0 1 (by norm_num)
  unfold discriminator
  rw [div_lt_iff₀ (by linarith)]
  linarith

/-- Shared helper: in the spec's concrete scenario the trapezoidal integral of
the minimax value curve is strictly GREATER than `-log 4`: pointwise the curve
is at least `(P_T + P_G) * log(0.5)`, and the two density integrals are each
`≈ 1/sqrt 2`, so the integral is at least `≈ -log 4 / sqrt 2 > -log 4`. -/
theorem minimax_scenario_integral_gt :
    -Real.log 4 < trapz (fun y =>
      OneDimGaussianGAN.value_fn y (make_gaussian_model 3 0.5) (make_gaussian_model 0 1) "v") := by
  have hptpos : ∀ y, 0 < make_gaussian_model 3 0.5 y :=
    fun y => gaussian_model_pos y 3 0.5 (by norm_num)
  have hpgpos : ∀ y, 0 < make_gaussian_model 0 1 y :=
    fun y => gaussian_model_pos y 0 1 (by norm_num)
  have hpoint : ∀ y, (fun z => (make_gaussian_model 3 0.5 z + make_gaussian_model 0 1 z)
        * Real.log 0.5) y
      ≤ (fun z => OneDimGaussianGAN.value_fn z (make_gaussian_model 3 0.5)
          (make_gaussian_model 0 1) "v") y :=
    fun y => value_fn_v_ge y _ _ (hptpos y) (hpgpos y)
  have hmono := trapz_le_trapz _ _ hpoint
  have hLHS : trapz (fun z => (make_gaussian_model 3 0.5 z + make_gaussian_model 0 1 z)
        * Real.log 0.5)
      = (trapz (make_gaussian_model 3 0.5) + trapz (make_gaussian_model 0 1))
        * Real.log 0.5 := by
    rw [trapz_mul_const, trapz_add]
  have hT := trapz_gaussian305_le
  have hG := trapz_gaussian01_bounds.2
  have hlog05 : Real.log 0.5 = -Real.log 2 := by
    rw [show (0.5 : ℝ) = 2⁻¹ by norm_num, Real.log_inv]
  have hlog4 : Real.log 4 = 2 * Real.log 2 := by
    rw [show (4 : ℝ) = 2 ^ 2 by norm_num, Real.log_pow]
    push_cast
    ring
  have hl2a := Real.log_two_gt_d9
  have hl2b := Real.log_two_lt_d9
  have hlog05_nonpos : Real.log 0.5 ≤ 0 := by
    rw [hlog05]
    linarith
  have hbound : (1.414208 : ℝ) * Real.log 0.5
      ≤ (trapz (make_gaussian_model 3 0.5) + trapz (make_gaussian_model 0 1))
        * Real.log 0.5 :=
    mul_le_mul_of_nonpos_right (by linarith) hlog05_nonpos
  have hfinal : -Real.log 4 < (1.414208 : ℝ) * Real.log 0.5 := by
    rw [hlog05, hlog4]
    linarith
  rw [hLHS] at hmono
  linarith

/-- C10 (counterexample): in the spec's scenario (`true = (3, 0.5)`,
`gen = (0, 1)`, grid `[-3, 6)` step `0.1`, minimax), the trapezoidal integral
of the value curve is NOT strictly less than `-log 4`; it is strictly greater
(the claim's direction is reversed: with the unnormalized densities the
integral is `≈ -0.98`, above `-log 4 ≈ -1.386`). -/
theorem C10_minimax_integral_counterexample :
    ¬ (trapz (fun y => OneDimGaussianGAN.value_fn y (make_gaussian_model 3 0.5)
        (make_gaussian_model 0 1) "v") < -Real.log 4) :=
  not_lt.2 (le_of_lt minimax_scenario_integral_gt)

/-- C10 (amended): in the concrete scenario `true_params = (3, 0.5)`,
`gen_params = (0, 1)`, grid `[-3, 6)` step `0.1`, minimax mode: the
discriminator at `x = 3` exceeds `0.9`, the discriminator at `x = 0` is below
`0.2`, and the trapezoidal integral of the minimax value curve is strictly
GREATER than `-log 4` (not strictly less, as claimed). -/
theorem C10_scenario_amended :
    (0.9 : ℝ) < discriminator 3 (make_gaussian_model 3 0.5) (make_gaussian_model 0 1)
    ∧ discriminator 0 (make_gaussian_model 3 0.5) (make_gaussian_model 0 1) < 0.2
    ∧ -Real.log 4 < trapz (fun y => OneDimGaussianGAN.value_fn y (make_gaussian_model 3 0.5)
        (make_gaussian_model 0 1) "v") :=
  ⟨scenario_disc_at_3, scenario_disc_at_0, minimax_scenario_integral_gt⟩
